import Mathlib

/-
  Verification development for the lib-guitar-io real-time audio library.

  Shallow embedding conventions:
  - audio samples and float/double quantities are modelled as rationals;
  - the functions std::sin and std::sqrt are abstracted as parameters
    (sine, sqrtf : Q -> Q);
  - the double constant 2*pi used by the code is modelled exactly as the
    IEEE-754 double nearest to 2*pi;
  - the RtAudio driver is external: its accept/reject answer to openStream
    is an explicit boolean parameter of Open, and its stream-open flag is a
    field of the device state;
  - raw driver buffers are modelled as functions from indices to samples,
    a null pointer as none.
-/

namespace GuitarLib

/-- The IEEE-754 double closest to 2*pi, the constant `2.0 * std::numbers::pi`
used by SineWaveGenerator. -/
def twoPi : ℚ := 884279719003555 / 140737488355328

/-- Mathematical remainder into [0, m): x - m * floor (x / m). -/
def qmod (x m : ℚ) : ℚ := x - m * (⌊x / m⌋ : ℚ)

/-- One phase step of SineWaveGenerator::Generate:
`currentPhase += phaseIncrement; if (currentPhase >= 2*pi) currentPhase -= 2*pi;`. -/
def stepPhase (inc p : ℚ) : ℚ :=
  if twoPi ≤ p + inc then p + inc - twoPi else p + inc

/-- Phase value after n generate steps starting from p. -/
def finalPhase (inc : ℚ) : ℚ → ℕ → ℚ
  | p, 0 => p
  | p, n + 1 => finalPhase inc (stepPhase inc p) n

/-- The successive phases read by n generate steps starting from p. -/
def phaseList (inc : ℚ) : ℚ → ℕ → List ℚ
  | _, 0 => []
  | p, n + 1 => p :: phaseList inc (stepPhase inc p) n

/-- State of GuitarIO::SineWaveGenerator (all double/float fields as rationals). -/
structure SineWaveGenerator where
  sampleRate : ℚ
  frequency : ℚ
  amplitude : ℚ
  currentPhase : ℚ
  phaseIncrement : ℚ
  deriving DecidableEq

/-- SineWaveGenerator::UpdateIncrement. -/
def SineWaveGenerator.UpdateIncrement (g : SineWaveGenerator) : SineWaveGenerator :=
  { g with phaseIncrement := twoPi * g.frequency / g.sampleRate }

/-- SineWaveGenerator::SetFrequency. -/
def SineWaveGenerator.SetFrequency (g : SineWaveGenerator) (freq : ℚ) : SineWaveGenerator :=
  SineWaveGenerator.UpdateIncrement { g with frequency := freq }

/-- SineWaveGenerator::SetAmplitude. -/
def SineWaveGenerator.SetAmplitude (g : SineWaveGenerator) (amp : ℚ) : SineWaveGenerator :=
  { g with amplitude := amp }

/-- SineWaveGenerator::SetSampleRate. -/
def SineWaveGenerator.SetSampleRate (g : SineWaveGenerator) (rate : ℚ) : SineWaveGenerator :=
  SineWaveGenerator.UpdateIncrement { g with sampleRate := rate }

/-- SineWaveGenerator::Reset. -/
def SineWaveGenerator.Reset (g : SineWaveGenerator) : SineWaveGenerator :=
  { g with currentPhase := 0 }

/-- The SineWaveGenerator constructor: only sampleRate is taken from the
argument; the remaining fields keep their member initializers (frequency 440,
amplitude 0.5, phase 0, increment 0). -/
def mkSineWaveGenerator (sampleRate : ℚ) : SineWaveGenerator :=
  { sampleRate := sampleRate, frequency := 440, amplitude := 1/2,
    currentPhase := 0, phaseIncrement := 0 }

/-- SineWaveGenerator::Generate over a buffer, returning the written buffer and
the updated generator. `sine` abstracts `std::sin` (composed with the
float cast). -/
def SineWaveGenerator.Generate (sine : ℚ → ℚ) :
    SineWaveGenerator → List ℚ → Bool → List ℚ × SineWaveGenerator
  | g, [], _ => ([], g)
  | g, s :: rest, accumulate =>
    let value := g.amplitude * sine g.currentPhase
    let out := if accumulate then s + value else value
    let r := SineWaveGenerator.Generate sine
      { g with currentPhase := stepPhase g.phaseIncrement g.currentPhase } rest accumulate
    (out :: r.1, r.2)

/-- The generator state reached by one Reset-then-Generate pass (overwrite
mode) over buf. -/
def resetGenStep (sine : ℚ → ℚ) (buf : List ℚ) (g : SineWaveGenerator) :
    SineWaveGenerator :=
  (SineWaveGenerator.Generate sine (SineWaveGenerator.Reset g) buf false).2

/-- The output of one Reset-then-Generate pass (overwrite mode) over buf. -/
def resetGenOut (sine : ℚ → ℚ) (buf : List ℚ) (g : SineWaveGenerator) : List ℚ :=
  (SineWaveGenerator.Generate sine (SineWaveGenerator.Reset g) buf false).1

/-- AudioMixer::Mix — scaled accumulate into the output buffer, a no-op on
empty or length-mismatched buffers. Returns the (new) output buffer. -/
def AudioMixer.Mix (input output : List ℚ) (gain : ℚ) : List ℚ :=
  if input.isEmpty || output.isEmpty || input.length != output.length then output
  else List.zipWith (fun o i => o + i * gain) output input

/-- State of GuitarIO::PolyphonicGenerator (MAX_VOICES = 6). -/
structure PolyphonicGenerator where
  voices : Fin 6 → SineWaveGenerator
  frequencies : Fin 6 → ℚ
  globalVolume : ℚ
  activeVoiceCount : ℕ

/-- The PolyphonicGenerator constructor: each default-constructed voice gets
SetSampleRate then SetAmplitude(0); frequencies all 0; globalVolume member
initializer 0.5; activeVoiceCount 0. -/
def mkPolyphonicGenerator (sampleRate : ℚ) : PolyphonicGenerator :=
  { voices := fun _ =>
      SineWaveGenerator.SetAmplitude
        (SineWaveGenerator.SetSampleRate (mkSineWaveGenerator 48000) sampleRate) 0,
    frequencies := fun _ => 0,
    globalVolume := 1/2,
    activeVoiceCount := 0 }

/-- PolyphonicGenerator::UpdateActiveVoiceCount — counts voices with
frequency > 0. -/
def PolyphonicGenerator.UpdateActiveVoiceCount (p : PolyphonicGenerator) :
    PolyphonicGenerator :=
  { p with activeVoiceCount :=
      (List.finRange 6).countP (fun i => decide (0 < p.frequencies i)) }

/-- PolyphonicGenerator::SetVoiceFrequency — out-of-range indices ignored;
the voice amplitude is forced to 1 for positive frequency, else 0; the active
voice count is recomputed. -/
def PolyphonicGenerator.SetVoiceFrequency (p : PolyphonicGenerator)
    (voiceIndex : ℕ) (frequency : ℚ) : PolyphonicGenerator :=
  if h : voiceIndex < 6 then
    let i : Fin 6 := ⟨voiceIndex, h⟩
    let v1 := SineWaveGenerator.SetFrequency (p.voices i) frequency
    let v2 := if 0 < frequency then SineWaveGenerator.SetAmplitude v1 1
              else SineWaveGenerator.SetAmplitude v1 0
    PolyphonicGenerator.UpdateActiveVoiceCount
      { p with frequencies := Function.update p.frequencies i frequency,
               voices := Function.update p.voices i v2 }
  else p

/-- PolyphonicGenerator::SetVoiceAmplitude — out-of-range indices ignored. -/
def PolyphonicGenerator.SetVoiceAmplitude (p : PolyphonicGenerator)
    (voiceIndex : ℕ) (amplitude : ℚ) : PolyphonicGenerator :=
  if h : voiceIndex < 6 then
    let i : Fin 6 := ⟨voiceIndex, h⟩
    let v1 := SineWaveGenerator.SetAmplitude (p.voices i) amplitude
    { p with voices := Function.update p.voices i v1 }
  else p

/-- PolyphonicGenerator::SetGlobalVolume — std::clamp(volume, 0, 1). -/
def PolyphonicGenerator.SetGlobalVolume (p : PolyphonicGenerator)
    (volume : ℚ) : PolyphonicGenerator :=
  { p with globalVolume := min (max volume 0) 1 }

/-- The per-voice loop of PolyphonicGenerator::Generate: for each index in l
whose frequency is positive, set that voice's amplitude to effVol and let it
generate in accumulate mode into the shared buffer. -/
def voiceFold (sine : ℚ → ℚ) (effVol : ℚ) (freqs : Fin 6 → ℚ) :
    List (Fin 6) → List ℚ → (Fin 6 → SineWaveGenerator) →
      List ℚ × (Fin 6 → SineWaveGenerator)
  | [], b, v => (b, v)
  | i :: rest, b, v =>
    if 0 < freqs i then
      let vd := SineWaveGenerator.SetAmplitude (v i) effVol
      let r := SineWaveGenerator.Generate sine vd b true
      voiceFold sine effVol freqs rest r.1 (Function.update v i r.2)
    else voiceFold sine effVol freqs rest b v

/-- PolyphonicGenerator::Generate. `sqrtf` abstracts `std::sqrt`. -/
def PolyphonicGenerator.Generate (sqrtf sine : ℚ → ℚ) (p : PolyphonicGenerator)
    (buffer : List ℚ) (accumulate : Bool) : List ℚ × PolyphonicGenerator :=
  if p.activeVoiceCount = 0 then
    (if accumulate then buffer else buffer.map (fun _ => 0), p)
  else
    let gainCompensation := 1 / sqrtf (p.activeVoiceCount : ℚ)
    let effectiveVolume := p.globalVolume * gainCompensation
    let b0 := if accumulate then buffer else buffer.map (fun _ => 0)
    let r := voiceFold sine effectiveVolume p.frequencies (List.finRange 6) b0 p.voices
    (r.1, { p with voices := r.2 })

/-- PolyphonicGenerator::Reset. -/
def PolyphonicGenerator.Reset (p : PolyphonicGenerator) : PolyphonicGenerator :=
  { p with voices := fun i => SineWaveGenerator.Reset (p.voices i) }

/-- RtAudio::StreamParameters (deviceId, nChannels, firstChannel). -/
structure StreamParameters where
  deviceId : ℕ
  nChannels : ℕ
  firstChannel : ℕ
  deriving DecidableEq

/-- GuitarIO::AudioStreamConfig with its member-initializer defaults. -/
structure AudioStreamConfig where
  sampleRate : ℕ := 48000
  bufferSize : ℕ := 512
  inputChannels : ℕ := 1
  outputChannels : ℕ := 0
  deriving DecidableEq

/-- State of GuitarIO::RtAudioDevice (equivalently AudioDevice::Impl).
`streamOpen`/`streamRunning` model the wrapped RtAudio instance's stream
state; `CB` is the stored std::function type (none = empty std::function)
and `U` the pointee type of the opaque user-data pointer (none = nullptr). -/
structure RtAudioDevice (CB U : Type) where
  streamOpen : Bool
  streamRunning : Bool
  callback : Option CB
  userData : Option U
  lastError : String
  inputParams : StreamParameters
  outputParams : StreamParameters
  hasInput : Bool
  hasOutput : Bool

/-- A freshly constructed RtAudioDevice: no stream, empty callback, null
user data, default StreamParameters. -/
def freshDevice (CB U : Type) : RtAudioDevice CB U :=
  { streamOpen := false, streamRunning := false, callback := none,
    userData := none, lastError := "",
    inputParams := ⟨0, 0, 0⟩, outputParams := ⟨0, 0, 0⟩,
    hasInput := false, hasOutput := false }

/-- RtAudioDevice::IsOpen — rtAudio.isStreamOpen(). -/
def RtAudioDevice.IsOpen (d : RtAudioDevice CB U) : Bool := d.streamOpen

/-- RtAudioDevice::IsRunning — rtAudio.isStreamRunning(). -/
def RtAudioDevice.IsRunning (d : RtAudioDevice CB U) : Bool := d.streamRunning

/-- RtAudioDevice::Open. The driver's answer to openStream is abstracted by
`driverAccepts` (with `driverErrorText` the message getErrorText would
return on rejection); on acceptance the stream becomes open. -/
def RtAudioDevice.Open (d : RtAudioDevice CB U) (deviceId : ℕ)
    (config : AudioStreamConfig) (userCallback : CB) (userPtr : Option U)
    (driverAccepts : Bool) (driverErrorText : String) :
    Bool × RtAudioDevice CB U :=
  if d.IsOpen then
    (false, { d with lastError := "Device already open" })
  else
    let d1 := { d with callback := some userCallback, userData := userPtr }
    let d2 := if 0 < config.inputChannels then
        { d1 with inputParams := ⟨deviceId, config.inputChannels, 0⟩, hasInput := true }
      else d1
    let d3 := if 0 < config.outputChannels then
        { d2 with outputParams := ⟨deviceId, config.outputChannels, 0⟩, hasOutput := true }
      else d2
    if driverAccepts then (true, { d3 with streamOpen := true })
    else (false, { d3 with lastError := driverErrorText })

/-- The processing callback type: input view, output view, user-data
pointer; returns the stream-control int. -/
def ProcessingCallback (U : Type) : Type := List ℚ → List ℚ → Option U → Int

/-- The input view the bridge builds over a raw input buffer: empty for a
null pointer, else nFrames x channels samples starting at the pointer, with
the channel count from the stored input parameters when input is enabled. -/
def bridgeInputView (d : RtAudioDevice (ProcessingCallback U) U)
    (inputBuffer : Option (ℕ → ℚ)) (nFrames : ℕ) : List ℚ :=
  match inputBuffer with
  | none => []
  | some mem =>
    (List.range (nFrames * (if d.hasInput then d.inputParams.nChannels else 1))).map mem

/-- The output view the bridge builds over a raw output buffer. -/
def bridgeOutputView (d : RtAudioDevice (ProcessingCallback U) U)
    (outputBuffer : Option (ℕ → ℚ)) (nFrames : ℕ) : List ℚ :=
  match outputBuffer with
  | none => []
  | some mem =>
    (List.range (nFrames * (if d.hasOutput then d.outputParams.nChannels else 1))).map mem

/-- RtAudioDevice::RtAudioCallback — the static callback bridge. The opaque
context pointer is modelled as an optional device (none = null); raw buffer
pointers as optional memories (none = null). -/
def RtAudioCallbackBridge (devicePtr : Option (RtAudioDevice (ProcessingCallback U) U))
    (outputBuffer inputBuffer : Option (ℕ → ℚ)) (nFrames : ℕ) : Int :=
  match devicePtr with
  | none => 1
  | some d =>
    match d.callback with
    | none => 1
    | some cb => cb (bridgeInputView d inputBuffer nFrames)
                    (bridgeOutputView d outputBuffer nFrames) d.userData

/-- A concrete stand-in for std::sin that is identically 0 (within the unit
bound), used by witnesses. -/
def sineZero : ℚ → ℚ := fun _ => 0

/-- A concrete stand-in for std::sin that is identically 1 (within the unit
bound, and the value sin attains arbitrarily closely at peaks). -/
def sineOne : ℚ → ℚ := fun _ => 1

/-- A concrete stand-in for std::sqrt, exact at the perfect squares used by
witnesses and counterexamples. -/
def sqrtStub : ℚ → ℚ := fun x => if x = 1 then 1 else if x = 4 then 2 else 0

/-- A default-rate sine generator, used by witnesses. -/
def swgW : SineWaveGenerator := mkSineWaveGenerator 48000

/-- A 440 Hz voice at phase 0 with its increment set for 48 kHz, as
SetSampleRate then SetFrequency would configure it. -/
def cexVoice : SineWaveGenerator :=
  { sampleRate := 48000, frequency := 440, amplitude := 0, currentPhase := 0,
    phaseIncrement := twoPi * 440 / 48000 }

/-- A polyphonic state with exactly one active voice (440 Hz, phase 0) and
global volume 1. -/
def cexState1 : PolyphonicGenerator :=
  { voices := fun _ => cexVoice,
    frequencies := fun i => if i.val < 1 then 440 else 0,
    globalVolume := 1, activeVoiceCount := 1 }

/-- A polyphonic state with four active voices, all identical (440 Hz,
phase 0), and global volume 1. -/
def cexState4 : PolyphonicGenerator :=
  { voices := fun _ => cexVoice,
    frequencies := fun i => if i.val < 4 then 440 else 0,
    globalVolume := 1, activeVoiceCount := 4 }

/-- A concrete failed Open: fresh device, default config (inputChannels 1),
callback 42, user-data pointer to 7, driver rejects. -/
def cexFailedOpen : Bool × RtAudioDevice ℕ ℕ :=
  RtAudioDevice.Open (freshDevice ℕ ℕ) 3 {} 42 (some 7) false ("driver rejected")

/-- The spec scenario config: 48000 Hz, 256 frames, 1 input channel, no
output channels. -/
def cfg256 : AudioStreamConfig :=
  { sampleRate := 48000, bufferSize := 256, inputChannels := 1, outputChannels := 0 }

/-- A device opened (driver accepting) with cfg256 from the fresh state. -/
def openedMonoDevice (U : Type) (cb : ProcessingCallback U) :
    RtAudioDevice (ProcessingCallback U) U :=
  (RtAudioDevice.Open (freshDevice (ProcessingCallback U) U) 0 cfg256 cb none true ("")).2

lemma twoPi_pos : 0 < twoPi := by norm_num [twoPi]

lemma qmod_eq_self {x T : ℚ} (hT : 0 < T) (h0 : 0 ≤ x) (h1 : x < T) :
    qmod x T = x := by
  have hfl : ⌊x / T⌋ = 0 := by
    rw [Int.floor_eq_zero_iff]
    exact Set.mem_Ico.mpr ⟨div_nonneg h0 hT.le, (div_lt_one hT).mpr h1⟩
  simp [qmod, hfl]

lemma qmod_eq_sub {x T : ℚ} (hT : 0 < T) (h0 : T ≤ x) (h1 : x < 2 * T) :
    qmod x T = x - T := by
  have hfl : ⌊x / T⌋ = 1 := by
    rw [Int.floor_eq_iff]
    constructor
    · push_cast
      exact (one_le_div hT).mpr h0
    · push_cast
      rw [div_lt_iff₀ hT]
      linarith
  rw [qmod, hfl]
  push_cast
  ring

lemma qmod_qmod_add (x y T : ℚ) (hT : T ≠ 0) :
    qmod (qmod x T + y) T = qmod (x + y) T := by
  unfold qmod
  have hdiv : (x - T * (⌊x / T⌋ : ℚ) + y) / T = (x + y) / T - (⌊x / T⌋ : ℚ) := by
    field_simp
    ring
  rw [hdiv]
  rw [show ((x + y) / T - (⌊x / T⌋ : ℚ)) = ((x + y) / T - (⌊x / T⌋ : ℤ)) from by norm_cast]
  rw [Int.floor_sub_int]
  push_cast
  ring

lemma stepPhase_spec {inc p : ℚ} (hi0 : 0 ≤ inc) (hi1 : inc ≤ twoPi)
    (hp0 : 0 ≤ p) (hp1 : p < twoPi) :
    0 ≤ stepPhase inc p ∧ stepPhase inc p < twoPi
      ∧ stepPhase inc p = qmod (p + inc) twoPi := by
  have hT := twoPi_pos
  unfold stepPhase
  by_cases h : twoPi ≤ p + inc
  · rw [if_pos h]
    refine ⟨by linarith, by linarith, ?_⟩
    rw [qmod_eq_sub hT h (by linarith)]
  · rw [if_neg h]
    push_neg at h
    refine ⟨by linarith, h, ?_⟩
    rw [qmod_eq_self hT (by linarith) h]

lemma finalPhase_spec {inc : ℚ} (hi0 : 0 ≤ inc) (hi1 : inc ≤ twoPi) :
    ∀ (n : ℕ) (p : ℚ), 0 ≤ p → p < twoPi →
      0 ≤ finalPhase inc p n ∧ finalPhase inc p n < twoPi
        ∧ finalPhase inc p n = qmod (p + (n : ℚ) * inc) twoPi := by
  intro n
  induction n with
  | zero =>
    intro p hp0 hp1
    refine ⟨hp0, hp1, ?_⟩
    show p = qmod (p + (0 : ℚ) * inc) twoPi
    rw [show p + (0 : ℚ) * inc = p from by ring, qmod_eq_self twoPi_pos hp0 hp1]
  | succ n ih =>
    intro p hp0 hp1
    obtain ⟨h0, h1, h2⟩ := stepPhase_spec hi0 hi1 hp0 hp1
    obtain ⟨g0, g1, g2⟩ := ih (stepPhase inc p) h0 h1
    refine ⟨g0, g1, ?_⟩
    show finalPhase inc (stepPhase inc p) n = _
    rw [g2, h2, qmod_qmod_add _ _ _ (ne_of_gt twoPi_pos)]
    congr 1
    push_cast
    ring

lemma SineWaveGenerator.Generate_snd (sine : ℚ → ℚ) :
    ∀ (buf : List ℚ) (g : SineWaveGenerator) (acc : Bool),
      (SineWaveGenerator.Generate sine g buf acc).2
        = { g with currentPhase := finalPhase g.phaseIncrement g.currentPhase buf.length } := by
  intro buf
  induction buf with
  | nil => intro g acc; rfl
  | cons s rest ih =>
    intro g acc
    show (SineWaveGenerator.Generate sine
      { g with currentPhase := stepPhase g.phaseIncrement g.currentPhase } rest acc).2 = _
    rw [ih]
    rfl

lemma SineWaveGenerator.Generate_fst_overwrite (sine : ℚ → ℚ) :
    ∀ (buf : List ℚ) (g : SineWaveGenerator),
      (SineWaveGenerator.Generate sine g buf false).1
        = (phaseList g.phaseIncrement g.currentPhase buf.length).map
            (fun p => g.amplitude * sine p) := by
  intro buf
  induction buf with
  | nil => intro g; rfl
  | cons s rest ih =>
    intro g
    show (g.amplitude * sine g.currentPhase) :: (SineWaveGenerator.Generate sine
      { g with currentPhase := stepPhase g.phaseIncrement g.currentPhase } rest false).1 = _
    rw [ih]
    rfl

lemma SineWaveGenerator.SetAmplitude_SetAmplitude (g : SineWaveGenerator) (a e : ℚ) :
    SineWaveGenerator.SetAmplitude (SineWaveGenerator.SetAmplitude g a) e
      = SineWaveGenerator.SetAmplitude g e := rfl

lemma voiceFold_fst_congr (sine : ℚ → ℚ) (e : ℚ) (freqs : Fin 6 → ℚ) :
    ∀ (l : List (Fin 6)) (b : List ℚ) (v₁ v₂ : Fin 6 → SineWaveGenerator),
      (∀ i, SineWaveGenerator.SetAmplitude (v₁ i) e
              = SineWaveGenerator.SetAmplitude (v₂ i) e) →
      (voiceFold sine e freqs l b v₁).1 = (voiceFold sine e freqs l b v₂).1 := by
  intro l
  induction l with
  | nil => intro b v₁ v₂ h; rfl
  | cons i rest ih =>
    intro b v₁ v₂ h
    show (voiceFold sine e freqs (i :: rest) b v₁).1 = _
    unfold voiceFold
    by_cases hf : 0 < freqs i
    · rw [if_pos hf, if_pos hf]
      rw [h i]
      apply ih
      intro j
      by_cases hj : j = i
      · subst hj; simp [Function.update]
      · simpa [Function.update, hj] using h j
    · rw [if_neg hf, if_neg hf]
      exact ih b v₁ v₂ h

lemma voiceFold_untouched (sine : ℚ → ℚ) (e : ℚ) (freqs : Fin 6 → ℚ) :
    ∀ (l : List (Fin 6)) (b : List ℚ) (v : Fin 6 → SineWaveGenerator) (i : Fin 6),
      i ∉ l → (voiceFold sine e freqs l b v).2 i = v i := by
  intro l
  induction l with
  | nil => intro b v i _; rfl
  | cons j rest ih =>
    intro b v i hi
    have hij : i ≠ j := fun h => hi (h ▸ List.mem_cons_self j rest)
    have hrest : i ∉ rest := fun h => hi (List.mem_cons_of_mem j h)
    show (voiceFold sine e freqs (j :: rest) b v).2 i = v i
    unfold voiceFold
    by_cases hf : 0 < freqs j
    · rw [if_pos hf]
      rw [ih _ _ i hrest]
      simp [Function.update, hij]
    · rw [if_neg hf]
      exact ih b v i hrest

lemma voiceFold_amp (sine : ℚ → ℚ) (e : ℚ) (freqs : Fin 6 → ℚ) :
    ∀ (l : List (Fin 6)), l.Nodup →
      ∀ (b : List ℚ) (v : Fin 6 → SineWaveGenerator) (i : Fin 6),
        i ∈ l → 0 < freqs i →
        ((voiceFold sine e freqs l b v).2 i).amplitude = e := by
  intro l
  induction l with
  | nil => intro _ b v i hi; exact absurd hi (List.not_mem_nil i)
  | cons j rest ih =>
    intro hnd b v i hi hf
    have hjrest : j ∉ rest := (List.nodup_cons.mp hnd).1
    have hndrest : rest.Nodup := (List.nodup_cons.mp hnd).2
    show ((voiceFold sine e freqs (j :: rest) b v).2 i).amplitude = e
    unfold voiceFold
    rcases List.mem_cons.mp hi with hij | hirest
    · subst hij
      rw [if_pos hf]
      rw [voiceFold_untouched sine e freqs rest _ _ i hjrest]
      rw [Function.update_same]
      rw [SineWaveGenerator.Generate_snd]
      rfl
    · have hij : i ≠ j := fun h => hjrest (h ▸ hirest)
      by_cases hfj : 0 < freqs j
      · rw [if_pos hfj]
        exact ih hndrest _ _ i hirest hf
      · rw [if_neg hfj]
        exact ih hndrest b v i hirest hf

lemma finRange_six : List.finRange 6
    = [⟨0, by norm_num⟩, ⟨1, by norm_num⟩, ⟨2, by norm_num⟩,
       ⟨3, by norm_num⟩, ⟨4, by norm_num⟩, ⟨5, by norm_num⟩] := by decide

lemma Generate_fst_voices_congr (sqrtf sine : ℚ → ℚ) (p : PolyphonicGenerator)
    (v₁ v₂ : Fin 6 → SineWaveGenerator) (buf : List ℚ) (acc : Bool)
    (hv : ∀ (e : ℚ) (i : Fin 6), SineWaveGenerator.SetAmplitude (v₁ i) e
            = SineWaveGenerator.SetAmplitude (v₂ i) e) :
    (PolyphonicGenerator.Generate sqrtf sine { p with voices := v₁ } buf acc).1
      = (PolyphonicGenerator.Generate sqrtf sine { p with voices := v₂ } buf acc).1 := by
  unfold PolyphonicGenerator.Generate
  dsimp only
  by_cases hc : p.activeVoiceCount = 0
  · rw [if_pos hc, if_pos hc]
  · rw [if_neg hc, if_neg hc]
    exact voiceFold_fst_congr sine _ p.frequencies (List.finRange 6) _ v₁ v₂ (hv _)

/-- Claim C1 counterexample: a failed Open (driver rejects) on a fresh closed
engine retains the stored callback, the user-data pointer and the input
channel configuration written before the driver call, contradicting "no
partial resource retention" — even though the stream itself stays closed. -/
theorem failedOpen_retention_cex :
    cexFailedOpen.2.callback = some 42 ∧ cexFailedOpen.2.userData = some 7
      ∧ cexFailedOpen.2.hasInput = true ∧ cexFailedOpen.2.streamOpen = false := by
  refine ⟨rfl, rfl, rfl, rfl⟩

/-- Claim C1 (amended): when Open on a Closed engine fails because the driver
rejects the stream, the call returns false, the stream stays closed and the
driver message is recorded; but the callback, the user-data pointer and any
channel configuration written for the failed call are retained, not rolled
back (fields untouched by the config keep their previous values). -/
theorem failedOpen_state_characterization (CB U : Type) (d : RtAudioDevice CB U)
    (devId : ℕ) (cfg : AudioStreamConfig) (cb : CB) (up : Option U) (derr : String) :
    let r := RtAudioDevice.Open { d with streamOpen := false } devId cfg cb up false derr
    r.1 = false ∧ r.2.streamOpen = false ∧ r.2.lastError = derr
      ∧ r.2.callback = some cb ∧ r.2.userData = up
      ∧ r.2.hasInput = (if 0 < cfg.inputChannels then true else d.hasInput)
      ∧ r.2.inputParams
          = (if 0 < cfg.inputChannels then ⟨devId, cfg.inputChannels, 0⟩ else d.inputParams)
      ∧ r.2.hasOutput = (if 0 < cfg.outputChannels then true else d.hasOutput)
      ∧ r.2.outputParams
          = (if 0 < cfg.outputChannels then ⟨devId, cfg.outputChannels, 0⟩ else d.outputParams) := by
  by_cases h1 : 0 < cfg.inputChannels <;> by_cases h2 : 0 < cfg.outputChannels <;>
    simp [RtAudioDevice.Open, RtAudioDevice.IsOpen, h1, h2]

/-- Claim C2: Open on an engine whose stream is already open (whether or not
it is also running) fails with the already-open error and leaves every other
field — callback, user data, negotiated parameters, flags — unchanged; only
lastError is overwritten. -/
theorem open_while_open_noop (CB U : Type) (d : RtAudioDevice CB U) (devId : ℕ)
    (cfg : AudioStreamConfig) (cb : CB) (up : Option U) (dok : Bool) (derr : String) :
    RtAudioDevice.Open { d with streamOpen := true } devId cfg cb up dok derr
      = (false, { d with streamOpen := true, lastError := "Device already open" }) := rfl

/-- Claim C3: the callback bridge returns the stop sentinel 1 when the
recovered device pointer is null or no user callback is stored, and otherwise
invokes the user callback on the input view, the output view and the stored
user-data pointer, returning its result verbatim. -/
theorem bridge_dispatch (U : Type) (d : RtAudioDevice (ProcessingCallback U) U)
    (cb : ProcessingCallback U) (outB inB : Option (ℕ → ℚ)) (n : ℕ) :
    RtAudioCallbackBridge (none : Option (RtAudioDevice (ProcessingCallback U) U)) outB inB n = 1
      ∧ RtAudioCallbackBridge (some { d with callback := none }) outB inB n = 1
      ∧ RtAudioCallbackBridge (some { d with callback := some cb }) outB inB n
          = cb (bridgeInputView { d with callback := some cb } inB n)
               (bridgeOutputView { d with callback := some cb } outB n) d.userData :=
  ⟨rfl, rfl, rfl⟩

/-- Claim C4: over a non-null buffer the bridge's typed view has length
nFrames x nChannels with the channel count from the stored stream parameters
(null pointers give empty views); in particular a device opened with
inputChannels = 1, outputChannels = 0 yields, on a 256-frame invocation, an
input view of length 256 and an output view of length 0. -/
theorem bridge_view_lengths (U : Type) (d : RtAudioDevice (ProcessingCallback U) U)
    (did c fc did2 c2 fc2 : ℕ) (mem mem2 : ℕ → ℚ) (nFrames : ℕ)
    (cb : ProcessingCallback U) :
    (bridgeInputView { d with hasInput := true, inputParams := ⟨did, c, fc⟩ }
        (some mem) nFrames).length = nFrames * c
      ∧ (bridgeOutputView { d with hasOutput := true, outputParams := ⟨did2, c2, fc2⟩ }
        (some mem2) nFrames).length = nFrames * c2
      ∧ bridgeInputView d none nFrames = []
      ∧ bridgeOutputView d none nFrames = []
      ∧ (bridgeInputView (openedMonoDevice U cb) (some mem) 256).length = 256
      ∧ bridgeOutputView (openedMonoDevice U cb) none 256 = [] := by
  refine ⟨?_, ?_, rfl, rfl, ?_, rfl⟩
  · simp [bridgeInputView]
  · simp [bridgeOutputView]
  · simp [bridgeInputView, openedMonoDevice, RtAudioDevice.Open, RtAudioDevice.IsOpen,
      freshDevice, cfg256]

/-- Claim C5: for valid parameters (nonnegative amplitude, positive sample
rate, frequency below Nyquist) and a non-empty buffer, overwrite-mode
Generate emits exactly amplitude * sin(phase) at each sample's phase, and
(sin being bounded by 1 in absolute value) every written value lies in
[-amplitude, amplitude]. -/
theorem generate_bounded_sin (sine : ℚ → ℚ) (g : SineWaveGenerator) (buf : List ℚ)
    (hs : ∀ x, -1 ≤ sine x ∧ sine x ≤ 1) (ha : 0 ≤ g.amplitude)
    (_hsr : 0 < g.sampleRate) (_hnyq : g.frequency < g.sampleRate / 2)
    (_hne : buf ≠ []) :
    (SineWaveGenerator.Generate sine g buf false).1
        = (phaseList g.phaseIncrement g.currentPhase buf.length).map
            (fun p => g.amplitude * sine p)
      ∧ ∀ y ∈ (SineWaveGenerator.Generate sine g buf false).1,
          -g.amplitude ≤ y ∧ y ≤ g.amplitude := by
  have hmap := SineWaveGenerator.Generate_fst_overwrite sine buf g
  refine ⟨hmap, ?_⟩
  intro y hy
  rw [hmap] at hy
  obtain ⟨p, hp, rfl⟩ := List.mem_map.mp hy
  obtain ⟨hl, hu⟩ := hs p
  constructor
  · nlinarith
  · nlinarith

/-- Witness for C5: the default generator with the zero stand-in for sin on a
two-sample buffer. -/
theorem generate_bounded_sin_witness :
    (∀ x : ℚ, -1 ≤ sineZero x ∧ sineZero x ≤ 1)
      ∧ 0 ≤ swgW.amplitude ∧ 0 < swgW.sampleRate
      ∧ swgW.frequency < swgW.sampleRate / 2 ∧ ([0, 0] : List ℚ) ≠ []
      ∧ ((SineWaveGenerator.Generate sineZero swgW [0, 0] false).1
            = (phaseList swgW.phaseIncrement swgW.currentPhase
                (([0, 0] : List ℚ).length)).map (fun p => swgW.amplitude * sineZero p)
          ∧ ∀ y ∈ (SineWaveGenerator.Generate sineZero swgW [0, 0] false).1,
              -swgW.amplitude ≤ y ∧ y ≤ swgW.amplitude) := by
  refine ⟨fun x => by norm_num [sineZero], by norm_num [swgW, mkSineWaveGenerator],
    by norm_num [swgW, mkSineWaveGenerator], by norm_num [swgW, mkSineWaveGenerator],
    by decide, ?_⟩
  exact generate_bounded_sin sineZero swgW [0, 0]
    (fun x => by norm_num [sineZero]) (by norm_num [swgW, mkSineWaveGenerator])
    (by norm_num [swgW, mkSineWaveGenerator]) (by norm_num [swgW, mkSineWaveGenerator])
    (by decide)

/-- Claim C6 counterexample: the phase is not unconditionally kept in
[0, 2*pi) by every operation — after SetFrequency(-1) (a frequency the
setter accepts), a single Generate step leaves the phase negative. -/
theorem phase_invariant_cex :
    ¬ (0 ≤ (SineWaveGenerator.Generate sineZero
        (SineWaveGenerator.SetFrequency (mkSineWaveGenerator 48000) (-1))
        [0] false).2.currentPhase) := by
  have key : (SineWaveGenerator.Generate sineZero
      (SineWaveGenerator.SetFrequency (mkSineWaveGenerator 48000) (-1))
      [0] false).2.currentPhase = twoPi * (-1) / 48000 := by
    rw [SineWaveGenerator.Generate_snd]
    show stepPhase (twoPi * (-1) / 48000) 0 = twoPi * (-1) / 48000
    unfold stepPhase
    rw [if_neg (by norm_num [twoPi])]
    ring
  rw [key]
  norm_num [twoPi]

/-- Claim C6 (amended): provided the phase increment lies in [0, 2*pi] (which
holds for 0 ≤ frequency ≤ sampleRate, hence for any below-Nyquist audio
frequency) and the phase starts in [0, 2*pi), generating a buffer keeps the
phase in [0, 2*pi) and advances it by bufferLength x increment modulo 2*pi;
the increment is recomputed as 2*pi x frequency / sampleRate on every
frequency or sample-rate change, and no setter other than Reset moves the
phase. -/
theorem phase_invariant_wrap (sine : ℚ → ℚ) (g : SineWaveGenerator)
    (buf : List ℚ) (acc : Bool) (f r a : ℚ)
    (h0 : 0 ≤ g.currentPhase) (h1 : g.currentPhase < twoPi)
    (h2 : 0 ≤ g.phaseIncrement) (h3 : g.phaseIncrement ≤ twoPi) :
    (0 ≤ (SineWaveGenerator.Generate sine g buf acc).2.currentPhase
      ∧ (SineWaveGenerator.Generate sine g buf acc).2.currentPhase < twoPi
      ∧ (SineWaveGenerator.Generate sine g buf acc).2.currentPhase
          = qmod (g.currentPhase + (buf.length : ℚ) * g.phaseIncrement) twoPi)
    ∧ (SineWaveGenerator.SetFrequency g f).phaseIncrement = twoPi * f / g.sampleRate
    ∧ (SineWaveGenerator.SetSampleRate g r).phaseIncrement = twoPi * g.frequency / r
    ∧ (SineWaveGenerator.Reset g).currentPhase = 0
    ∧ (SineWaveGenerator.SetFrequency g f).currentPhase = g.currentPhase
    ∧ (SineWaveGenerator.SetSampleRate g r).currentPhase = g.currentPhase
    ∧ (SineWaveGenerator.SetAmplitude g a).currentPhase = g.currentPhase := by
  refine ⟨?_, rfl, rfl, rfl, rfl, rfl, rfl⟩
  rw [SineWaveGenerator.Generate_snd]
  obtain ⟨b0, b1, b2⟩ := finalPhase_spec h2 h3 buf.length g.currentPhase h0 h1
  exact ⟨b0, b1, b2⟩

/-- Witness for C6 (amended) at the default generator (phase 0, increment 0)
over a two-sample buffer. -/
theorem phase_invariant_wrap_witness :
    (0 ≤ swgW.currentPhase ∧ swgW.currentPhase < twoPi
      ∧ 0 ≤ swgW.phaseIncrement ∧ swgW.phaseIncrement ≤ twoPi)
    ∧ ((0 ≤ (SineWaveGenerator.Generate sineZero swgW [0, 0] false).2.currentPhase
        ∧ (SineWaveGenerator.Generate sineZero swgW [0, 0] false).2.currentPhase < twoPi
        ∧ (SineWaveGenerator.Generate sineZero swgW [0, 0] false).2.currentPhase
            = qmod (swgW.currentPhase
                + ((([0, 0] : List ℚ).length : ℕ) : ℚ) * swgW.phaseIncrement) twoPi)
      ∧ (SineWaveGenerator.SetFrequency swgW 1).phaseIncrement = twoPi * 1 / swgW.sampleRate
      ∧ (SineWaveGenerator.SetSampleRate swgW 2).phaseIncrement = twoPi * swgW.frequency / 2
      ∧ (SineWaveGenerator.Reset swgW).currentPhase = 0
      ∧ (SineWaveGenerator.SetFrequency swgW 1).currentPhase = swgW.currentPhase
      ∧ (SineWaveGenerator.SetSampleRate swgW 2).currentPhase = swgW.currentPhase
      ∧ (SineWaveGenerator.SetAmplitude swgW 3).currentPhase = swgW.currentPhase) := by
  refine ⟨⟨by norm_num [swgW, mkSineWaveGenerator],
    by norm_num [swgW, mkSineWaveGenerator, twoPi],
    by norm_num [swgW, mkSineWaveGenerator],
    by norm_num [swgW, mkSineWaveGenerator, twoPi]⟩, ?_⟩
  exact phase_invariant_wrap sineZero swgW [0, 0] false 1 2 3
    (by norm_num [swgW, mkSineWaveGenerator])
    (by norm_num [swgW, mkSineWaveGenerator, twoPi])
    (by norm_num [swgW, mkSineWaveGenerator])
    (by norm_num [swgW, mkSineWaveGenerator, twoPi])

/-- Claim C7: Reset-then-Generate over the same buffer is deterministic — the
k-th repetition produces exactly the output of the first, for every k, every
buffer, every abstract sin, and every generator state. -/
theorem reset_generate_deterministic (sine : ℚ → ℚ) (buf : List ℚ)
    (g : SineWaveGenerator) (k : ℕ) :
    resetGenOut sine buf ((resetGenStep sine buf)^[k] g) = resetGenOut sine buf g := by
  have hpres : ∀ h : SineWaveGenerator,
      (resetGenStep sine buf h).amplitude = h.amplitude
        ∧ (resetGenStep sine buf h).phaseIncrement = h.phaseIncrement := by
    intro h
    unfold resetGenStep
    rw [SineWaveGenerator.Generate_snd]
    exact ⟨rfl, rfl⟩
  have hiter : ∀ k : ℕ, ((resetGenStep sine buf)^[k] g).amplitude = g.amplitude
      ∧ ((resetGenStep sine buf)^[k] g).phaseIncrement = g.phaseIncrement := by
    intro k
    induction k with
    | zero => exact ⟨rfl, rfl⟩
    | succ k ih =>
      rw [Function.iterate_succ_apply']
      exact ⟨(hpres _).1.trans ih.1, (hpres _).2.trans ih.2⟩
  unfold resetGenOut
  rw [SineWaveGenerator.Generate_fst_overwrite, SineWaveGenerator.Generate_fst_overwrite]
  show (phaseList ((resetGenStep sine buf)^[k] g).phaseIncrement 0 buf.length).map
      (fun p => ((resetGenStep sine buf)^[k] g).amplitude * sine p)
    = (phaseList g.phaseIncrement 0 buf.length).map (fun p => g.amplitude * sine p)
  rw [(hiter k).1, (hiter k).2]

/-- Claim C8 counterexample: the peak output amplitude is not independent of
the active voice count for identical-frequency voices — with global volume 1,
one active 440 Hz voice yields a sample of magnitude 1 while four identical
in-phase 440 Hz voices yield 2 (the coherent sum is v * sqrt(k), not v). -/
theorem peak_not_independent_cex :
    (PolyphonicGenerator.Generate sqrtStub sineOne cexState1 [0] false).1 = [1]
      ∧ (PolyphonicGenerator.Generate sqrtStub sineOne cexState4 [0] false).1 = [2]
      ∧ cexState1.globalVolume = 1 ∧ cexState4.globalVolume = 1
      ∧ cexState1.activeVoiceCount = 1 ∧ cexState4.activeVoiceCount = 4 := by
  refine ⟨?_, ?_, rfl, rfl, rfl, rfl⟩ <;>
  norm_num [PolyphonicGenerator.Generate, cexState1, cexState4, cexVoice,
    finRange_six, voiceFold, SineWaveGenerator.Generate, SineWaveGenerator.SetAmplitude,
    sineOne, sqrtStub, Function.update]

/-- Claim C8 (amended): with k = activeVoiceCount ≥ 1, Generate drives every
active voice with effective per-voice gain globalVolume / sqrt(k) — the voice
amplitudes are overwritten with exactly that value; the resulting peak for k
identical in-phase voices is v * sqrt(k), not independent of k. -/
theorem per_voice_gain (sqrtf sine : ℚ → ℚ) (p : PolyphonicGenerator)
    (buf : List ℚ) (acc : Bool) (i : Fin 6)
    (hc : p.activeVoiceCount ≠ 0) (hf : 0 < p.frequencies i) :
    (((PolyphonicGenerator.Generate sqrtf sine p buf acc).2).voices i).amplitude
      = p.globalVolume / sqrtf (p.activeVoiceCount : ℚ) := by
  unfold PolyphonicGenerator.Generate
  rw [if_neg hc]
  dsimp only
  rw [voiceFold_amp sine _ p.frequencies (List.finRange 6) (List.nodup_finRange 6)
    _ _ i (List.mem_finRange i) hf]
  rw [mul_one_div]

/-- Witness for C8 (amended): the one-active-voice state with the exact
square-root stand-in. -/
theorem per_voice_gain_witness :
    cexState1.activeVoiceCount ≠ 0
      ∧ 0 < cexState1.frequencies ⟨0, by norm_num⟩
      ∧ (((PolyphonicGenerator.Generate sqrtStub sineOne cexState1 [0] false).2).voices
            ⟨0, by norm_num⟩).amplitude
          = cexState1.globalVolume / sqrtStub (cexState1.activeVoiceCount : ℚ) := by
  refine ⟨by decide, by decide, ?_⟩
  exact per_voice_gain sqrtStub sineOne cexState1 [0] false ⟨0, by norm_num⟩
    (by decide) (by decide)

/-- Claim C9: Mix is a no-op (output returned unchanged) when the buffers are
empty or mismatched in length, it preserves the output length, and otherwise
it adds input[i] * gain into output[i] at every index; it is total (never an
error) by construction. -/
theorem mix_spec (input output : List ℚ) (gain : ℚ) :
    (input = [] ∨ output = [] ∨ input.length ≠ output.length →
        AudioMixer.Mix input output gain = output)
      ∧ (AudioMixer.Mix input output gain).length = output.length
      ∧ (input.length = output.length →
          ∀ i, i < output.length →
            (AudioMixer.Mix input output gain)[i]! = output[i]! + input[i]! * gain) := by
  by_cases hB : (input.isEmpty || output.isEmpty || input.length != output.length) = true
  · have hMix : AudioMixer.Mix input output gain = output := by
      unfold AudioMixer.Mix
      rw [hB]
      rfl
    have hcases : (input = [] ∨ output = []) ∨ ¬ input.length = output.length := by
      simpa [Bool.or_eq_true] using hB
    refine ⟨fun _ => hMix, by rw [hMix], ?_⟩
    intro hlen i hi
    exfalso
    rcases hcases with h | h
    · rcases h with h | h
      · rw [h] at hlen
        rw [← hlen] at hi
        simp at hi
      · rw [h] at hi
        simp at hi
    · exact h hlen
  · have hBf : (input.isEmpty || output.isEmpty || input.length != output.length) = false := by
      simpa using hB
    have hMix : AudioMixer.Mix input output gain
        = List.zipWith (fun o i => o + i * gain) output input := by
      unfold AudioMixer.Mix
      rw [hBf]
      rfl
    obtain ⟨⟨h1, h2⟩, h3⟩ : (¬ input = [] ∧ ¬ output = []) ∧ input.length = output.length := by
      simpa [Bool.or_eq_false_iff] using hBf
    refine ⟨?_, ?_, ?_⟩
    · intro h
      exfalso
      rcases h with h | h | h
      · exact h1 h
      · exact h2 h
      · exact h h3
    · rw [hMix, List.length_zipWith, h3, min_self]
    · intro _ i hi
      have hzlen : i < (List.zipWith (fun o i => o + i * gain) output input).length := by
        rw [List.length_zipWith, h3, min_self]
        exact hi
      rw [hMix, getElem!_pos (List.zipWith (fun o i => o + i * gain) output input) i hzlen,
        getElem!_pos output i hi, getElem!_pos input i (by rw [h3]; exact hi),
        List.getElem_zipWith]

/-- Witness for C9: a mismatched pair left unchanged, and an index-wise
accumulate on matching two-element buffers. -/
theorem mix_spec_witness :
    AudioMixer.Mix [1] [2, 3] 5 = [2, 3]
      ∧ (AudioMixer.Mix [1, 2] [3, 4] 2)[1]! = ([3, 4] : List ℚ)[1]! + ([1, 2] : List ℚ)[1]! * 2 := by
  constructor
  · exact (mix_spec [1] [2, 3] 5).1 (Or.inr (Or.inr (by decide)))
  · exact (mix_spec [1, 2] [3, 4] 2).2.2 (by decide) 1 (by decide)

/-- Claim C10: a voice amplitude set through SetVoiceAmplitude on an active
voice has no effect on the output of a subsequent Generate (the amplitude is
overwritten with the effective volume first), and SetVoiceFrequency itself
forces the voice amplitude to 1 for a positive frequency and to 0 otherwise. -/
theorem voice_amplitude_override (sqrtf sine : ℚ → ℚ) (p : PolyphonicGenerator)
    (idx : ℕ) (h : idx < 6) (a a' f : ℚ) (buf : List ℚ) (acc : Bool)
    (_hact : 0 < p.frequencies ⟨idx, h⟩) :
    (PolyphonicGenerator.Generate sqrtf sine
        (PolyphonicGenerator.SetVoiceAmplitude p idx a) buf acc).1
      = (PolyphonicGenerator.Generate sqrtf sine
        (PolyphonicGenerator.SetVoiceAmplitude p idx a') buf acc).1
    ∧ ((PolyphonicGenerator.SetVoiceFrequency p idx f).voices ⟨idx, h⟩).amplitude
        = if 0 < f then 1 else 0 := by
  constructor
  · have hSVA : ∀ b : ℚ, PolyphonicGenerator.SetVoiceAmplitude p idx b
        = { p with voices := (Function.update p.voices ⟨idx, h⟩
            (SineWaveGenerator.SetAmplitude (p.voices ⟨idx, h⟩) b)) } := by
      intro b
      unfold PolyphonicGenerator.SetVoiceAmplitude
      rw [dif_pos h]
    rw [hSVA a, hSVA a']
    apply Generate_fst_voices_congr
    intro e i
    by_cases hij : i = ⟨idx, h⟩
    · subst hij
      rw [Function.update_same, Function.update_same,
        SineWaveGenerator.SetAmplitude_SetAmplitude,
        SineWaveGenerator.SetAmplitude_SetAmplitude]
    · rw [Function.update_noteq hij, Function.update_noteq hij]
  · unfold PolyphonicGenerator.SetVoiceFrequency
    rw [dif_pos h]
    unfold PolyphonicGenerator.UpdateActiveVoiceCount
    show (Function.update p.voices ⟨idx, h⟩ _ ⟨idx, h⟩).amplitude = _
    rw [Function.update_same]
    by_cases hf : 0 < f
    · rw [if_pos hf, if_pos hf]
      rfl
    · rw [if_neg hf, if_neg hf]
      rfl

/-- Witness for C10 at the one-active-voice state, amplitudes 3 and 7,
frequency 550. -/
theorem voice_amplitude_override_witness :
    0 < cexState1.frequencies ⟨0, by norm_num⟩
      ∧ ((PolyphonicGenerator.Generate sqrtStub sineOne
            (PolyphonicGenerator.SetVoiceAmplitude cexState1 0 3) [0] false).1
          = (PolyphonicGenerator.Generate sqrtStub sineOne
            (PolyphonicGenerator.SetVoiceAmplitude cexState1 0 7) [0] false).1
        ∧ ((PolyphonicGenerator.SetVoiceFrequency cexState1 0 550).voices
              ⟨0, by norm_num⟩).amplitude = if (0 : ℚ) < 550 then 1 else 0) := by
  refine ⟨by decide, ?_⟩
  exact voice_amplitude_override sqrtStub sineOne cexState1 0 (by norm_num) 3 7 550
    [0] false (by decide)

end GuitarLib
